import Mathlib

/-!
Shallow embedding of `aac_datasets/datasets/wavcaps.py` (WavCaps dataset
preparation and metadata loading) together with theorems settling the
specification claims about it.

Paths are modelled as strings joined with `/` (as `os.path.join` does on
POSIX for non-empty relative components); the filesystem is an explicit
association list from directory path to its listing; fallible operations
return `Except`.
-/

namespace WavCaps

/-- `os.path.join a b` for non-empty relative `b` on POSIX. -/
def pjoin (a b : String) : String := a ++ "/" ++ b

/-- `os.path.basename`: the part after the last `/` (the whole string when
there is no `/`). -/
def basename (s : String) : String :=
  String.mk ((s.toList.reverse.takeWhile (fun c => c ≠ '/')).reverse)

/-- `os.path.dirname`: the part before the last `/` (empty when there is no
`/`). -/
def dirname (s : String) : String :=
  String.mk (((s.toList.reverse.dropWhile (fun c => c ≠ '/')).drop 1).reverse)

/-- Python `str.replace pat rep` on character lists: replaces every
non-overlapping occurrence of `pat`, scanning left to right.  (For the
empty pattern Python interleaves `rep` everywhere; the source only uses the
non-empty pattern `".wav"`, and we return the string unchanged in that
degenerate case.) -/
def pyReplaceAux (pat rep : List Char) : Nat → List Char → List Char
  | 0, s => s
  | _ + 1, [] => []
  | fuel + 1, c :: cs =>
    if !pat.isEmpty && pat.isPrefixOf (c :: cs) then
      rep ++ pyReplaceAux pat rep fuel ((c :: cs).drop pat.length)
    else
      c :: pyReplaceAux pat rep fuel cs

/-- Python `str.replace` on strings.  The fuel argument bounds the number
of scanning steps; `s.length` steps always suffice since every step
consumes at least one character of `s`. -/
def pyReplace (s pat rep : String) : String :=
  String.mk (pyReplaceAux pat.toList rep.toList s.toList.length s.toList)

/-- `fnmatch`-style glob matching as used by the snapshot client's
`ignore_patterns`: `*` matches any sequence of characters (including `/`),
every other character matches itself.  The patterns built by the source use
no other glob metacharacter. -/
def globMatchAux : Nat → List Char → List Char → Bool
  | 0, _, _ => false
  | _ + 1, [], s => s.isEmpty
  | fuel + 1, '*' :: ps, [] => globMatchAux fuel ps []
  | fuel + 1, '*' :: ps, c :: s =>
    globMatchAux fuel ps (c :: s) || globMatchAux fuel ('*' :: ps) s
  | _ + 1, _ :: _, [] => false
  | fuel + 1, p :: ps, c :: s => p == c && globMatchAux fuel ps s

/-- Whether the glob pattern `pat` matches the repo-relative path `s`.
Every recursive step shortens `pat` or `s`, so
`pat.length + s.length + 1` fuel always suffices. -/
def globMatch (pat s : String) : Bool :=
  globMatchAux (pat.length + s.length + 1) pat.toList s.toList

/-- Python `str.endswith`. -/
def endswith (s suffix : String) : Bool :=
  suffix.toList.isSuffixOf s.toList

/-! ## Class-level constants of `WavCaps` -/

/-- `WavCaps.SOURCES = tuple(EXPECTED_SIZES.keys())`, in declaration order. -/
def SOURCES : List String :=
  ["AudioSet_SL", "BBC_Sound_Effects", "FreeSound", "SoundBible"]

/-- `WavCaps.EXPECTED_SIZES`: expected number of audio files per source.
The Python dict is only ever indexed at keys of `SOURCES`; other keys (which
would raise `KeyError`) are given a default that is never reached. -/
def EXPECTED_SIZES : String → Nat
  | "AudioSet_SL" => 108317
  | "BBC_Sound_Effects" => 31201
  | "FreeSound" => 262300
  | "SoundBible" => 1320
  | _ => 0

/-- `_WAVCAPS_AUDIO_DNAMES`: source name to audio directory name (the
identity on the four declared sources). -/
def WAVCAPS_AUDIO_DNAMES : String → String
  | "AudioSet_SL" => "AudioSet_SL"
  | "BBC_Sound_Effects" => "BBC_Sound_Effects"
  | "FreeSound" => "FreeSound"
  | "SoundBible" => "SoundBible"
  | s => s

/-- `_WAVCAPS_ARCHIVE_DNAMES`: source name to archive directory name (the
identity on the four declared sources). -/
def WAVCAPS_ARCHIVE_DNAMES : String → String
  | "AudioSet_SL" => "AudioSet_SL"
  | "BBC_Sound_Effects" => "BBC_Sound_Effects"
  | "FreeSound" => "FreeSound"
  | "SoundBible" => "SoundBible"
  | s => s

/-! ## Path helpers (`_get_*_dpath`)

The Python helpers also take `hf_cache_dir` and `revision` parameters, but
never use them; they are dropped here. -/

/-- `_get_wavcaps_dpath`. -/
def get_wavcaps_dpath (root : String) : String := pjoin root "WavCaps"

/-- `_get_json_dpath`. -/
def get_json_dpath (root : String) : String :=
  pjoin (get_wavcaps_dpath root) "json_files"

/-- `_get_archives_dpath`. -/
def get_archives_dpath (root : String) : String :=
  pjoin (get_wavcaps_dpath root) "Zip_files"

/-- `_get_audio_dpath`. -/
def get_audio_dpath (root : String) : String :=
  pjoin (get_wavcaps_dpath root) "Audio"

/-- `_get_audio_subset_dpath`. -/
def get_audio_subset_dpath (root source : String) : String :=
  pjoin (get_audio_dpath root) (WAVCAPS_AUDIO_DNAMES source)

/-- `_use_source(source, subset)`. -/
def use_source (source subset : String) : Bool :=
  (source == "AudioSet_SL" && (subset == "as" || subset == "as_bbc_sb")) ||
  (source == "BBC_Sound_Effects" && (subset == "bbc" || subset == "as_bbc_sb")) ||
  (source == "FreeSound" && (subset == "fsd")) ||
  (source == "SoundBible" && (subset == "sb" || subset == "as_bbc_sb"))

/-! ## Filesystem model and the completeness check (`_is_prepared`) -/

/-- Error raised by `os.listdir` on a path that is not an existing
directory (`FileNotFoundError`). -/
inductive FsErr
  | fileNotFound
deriving Repr, DecidableEq

/-- A filesystem fragment: directory path to the list of names it
contains.  A path absent from `dirs` is not an existing directory. -/
structure FS where
  dirs : List (String × List String)
deriving Repr, DecidableEq

/-- `os.listdir`. -/
def FS.listdir (fs : FS) (path : String) : Except FsErr (List String) :=
  match fs.dirs.lookup path with
  | some names => .ok names
  | none => .error .fileNotFound

/-- One `pylog.error` record emitted by `_is_prepared` on a count
mismatch: the failing source, its expected count and the found count. -/
structure SizeLog where
  source : String
  expected : Nat
  found : Nat
deriving Repr, DecidableEq

/-- The loop body of `_is_prepared` over the active sources: the first
mismatching source logs and returns `false`; a `listdir` failure
propagates. -/
def is_preparedGo (fs : FS) (root : String) :
    List String → Except FsErr (Bool × List SizeLog)
  | [] => .ok (true, [])
  | source :: rest => do
    let audio_fnames ← fs.listdir (get_audio_subset_dpath root source)
    let expected_size := EXPECTED_SIZES source
    if expected_size ≠ audio_fnames.length then
      .ok (false, [⟨source, expected_size, audio_fnames.length⟩])
    else
      is_preparedGo fs root rest

/-- `sources = [source for source in WavCaps.SOURCES if _use_source(source, subset)]`. -/
def activeSources (subset : String) : List String :=
  SOURCES.filter (fun source => use_source source subset)

/-- `_is_prepared(root, hf_cache_dir, revision, subset)`: returns the
boolean together with the emitted log records; `os.listdir` on a missing
audio directory raises, which surfaces as `.error`. -/
def is_prepared (fs : FS) (root subset : String) :
    Except FsErr (Bool × List SizeLog) :=
  is_preparedGo fs root (activeSources subset)

/-- Whether the audio directory of `source` exists and holds exactly the
expected number of files (the per-source condition `_is_prepared` tests). -/
def countMatches (fs : FS) (root source : String) : Bool :=
  match fs.dirs.lookup (get_audio_subset_dpath root source) with
  | some l => EXPECTED_SIZES source == l.length
  | none => false

/-- The log record `_is_prepared` emits for `source` (found count `0` when
the directory is missing, a case in which the code raises instead). -/
def mismatchLog (fs : FS) (root source : String) : SizeLog :=
  match fs.dirs.lookup (get_audio_subset_dpath root source) with
  | some l => ⟨source, EXPECTED_SIZES source, l.length⟩
  | none => ⟨source, EXPECTED_SIZES source, 0⟩

/-- Outcome of the pre-flight gate at the top of
`_prepare_wavcaps_dataset`. -/
inductive PrepGateResult
  | proceed
  | notPreparedError
  | listDirError
deriving Repr, DecidableEq

/-- The first statement of `_prepare_wavcaps_dataset`:
`if not _is_prepared(...): raise RuntimeError("WavCaps is not prepared...")`.
A `FileNotFoundError` escaping `_is_prepared` (missing audio directory,
i.e. nothing downloaded yet) propagates unchanged as `listDirError`;
when `_is_prepared` returns `True` the routine proceeds. -/
def prepareGate (fs : FS) (root subset : String) : PrepGateResult :=
  match is_prepared fs root subset with
  | .error _ => .listDirError
  | .ok (false, _) => .notPreparedError
  | .ok (true, _) => .proceed

/-! ## Ignore patterns for the snapshot fetch -/

/-- `ign_sources`: the sources not active in `subset`. -/
def ign_sources (subset : String) : List String :=
  SOURCES.filter (fun source => !use_source source subset)

/-- `ign_patterns` handed to `snapshot_download(..., ignore_patterns=...)`,
exactly as built in the source: for every inactive source the pair
`json_files/{source}/*.json` and the literal `Zip_files/*`. -/
def ign_patterns (subset : String) : List String :=
  (ign_sources subset).flatMap
    (fun source => ["json_files/" ++ source ++ "/*.json", "Zip_files/*"])

/-! ## Progress-bar handling around the snapshot fetch

The progress-display state of the hub client is a single global flag; we
track it as `disabled : Bool` (`are_progress_bars_disabled()` reads it,
`disable_progress_bars()` sets it to `true`, `enable_progress_bars()` to
`false`). -/

/-- Observable outcome of the fetch phase of `_prepare_wavcaps_dataset`:
the flag while `snapshot_download` runs, the flag after the phase, and
whether the fetch raised. -/
structure PbarTrace where
  duringDisabled : Bool
  finalDisabled : Bool
  raised : Bool
deriving Repr, DecidableEq

/-- The fetch phase exactly as written in the source:
`pbar_enabled = are_progress_bars_disabled()` (sic — the variable named
"enabled" is assigned the *disabled* flag), then
`if pbar_enabled and verbose <= 0: disable_progress_bars()`, the fetch
(no `try`/`finally`), then the same guard calling
`enable_progress_bars()`. -/
def pbarFetchPhase (initDisabled : Bool) (verbose : Int) (fetchRaises : Bool) :
    PbarTrace :=
  let pbar_enabled := initDisabled
  let duringDisabled :=
    if pbar_enabled && decide (verbose ≤ 0) then true else initDisabled
  if fetchRaises then
    ⟨duringDisabled, duringDisabled, true⟩
  else
    let finalDisabled :=
      if pbar_enabled && decide (verbose ≤ 0) then false else duringDisabled
    ⟨duringDisabled, finalDisabled, false⟩

/-! ## The dataset-root symlink -/

/-- State of the path `root/WavCaps` before the link step.  A symlink's
target is assumed to exist (snapshot paths returned by the fetch do), so
`os.path.exists` follows it to `true`, `os.path.islink` is `true`, and
`os.path.realpath` yields the target. -/
inductive PathState
  | missing
  | symlinkTo (target : String)
  | realDir
deriving Repr, DecidableEq

/-- Filesystem actions performed by the link step, in order. -/
inductive LinkAction
  | warned
  | removed
  | created (target : String)
deriving Repr, DecidableEq

/-- `RuntimeError("WavCaps root exists but it is not a symlink.")`. -/
inductive SymlinkErr
  | rootNotSymlink
deriving Repr, DecidableEq

/-- The "Build symlink to hf cache" block of `_prepare_wavcaps_dataset`:
returns the resulting state of `root/WavCaps` and the ordered actions
taken (the `pylog.error` replacement notice is recorded as `warned`). -/
def buildSymlink (cur : PathState) (snapshot_abs_dpath : String) :
    Except SymlinkErr (PathState × List LinkAction) :=
  match cur with
  | .missing =>
    .ok (.symlinkTo snapshot_abs_dpath, [.created snapshot_abs_dpath])
  | .realDir => .error .rootNotSymlink
  | .symlinkTo t =>
    if t ≠ snapshot_abs_dpath then
      .ok (.symlinkTo snapshot_abs_dpath,
           [.warned, .removed, .created snapshot_abs_dpath])
    else
      .ok (.symlinkTo t, [])

/-! ## Merge and selective extraction -/

/-- On-disk state consulted by the per-source merge/extract loop:
directory listings, the set of extant regular files (for `osp.isfile`),
and the readable zip archives with their `namelist()`. -/
structure DiskState where
  fs : FS
  files : List String
  zips : List (String × List String)
deriving Repr, DecidableEq

/-- Failures of the per-source loop body before extraction: the merged
archive cannot be opened, or one of the two `assert`s on the flac entries
fails. -/
inductive SourceErr
  | zipOpenError
  | emptyFlacAssert
  | dirnameAssert
deriving Repr, DecidableEq

/-- What the loop body decides to do for one source: how many times the
external merge subprocess is invoked, the flac entries of the archive, and
the members passed to `extractall` (the missing files). -/
structure ExtractPlan where
  mergeRuns : Nat
  flacs : List String
  missing : List String
deriving Repr, DecidableEq

/-- `source_and_splitted` filtered to the sources active in `subset`. -/
def sourceSplitFlags (subset : String) : List (String × Bool) :=
  ([("AudioSet_SL", true), ("BBC_Sound_Effects", true),
    ("FreeSound", true), ("SoundBible", false)]).filter
    (fun p => use_source p.1 subset)

/-- `main_zip_fpath` of the loop body. -/
def main_zip_fpath (root source : String) : String :=
  pjoin (pjoin (get_archives_dpath root) (WAVCAPS_ARCHIVE_DNAMES source))
    (source ++ ".zip")

/-- `merged_zip_fpath` of the loop body (the main archive itself for a
non-splitted source). -/
def merged_zip_fpath (root source : String) (is_splitted : Bool) : String :=
  if is_splitted then
    pjoin (pjoin (get_archives_dpath root) (WAVCAPS_ARCHIVE_DNAMES source))
      (source ++ "_merged.zip")
  else main_zip_fpath root source

/-- The body of the per-source loop of `_prepare_wavcaps_dataset`, up to
and including the computation of `missing_subnames` (the argument of
`extractall`): compute the main and merged archive paths, invoke the merge
subprocess iff the source is splitted and the merged file does not exist,
open the merged archive, check the two asserts on the flac entries, and
compute the missing members from the `src_root` and target listings
(`os.makedirs(..., exist_ok=True)` makes the target listing `[]` when the
directory did not exist).  `zips` is the archive store as openable at
`zipfile.ZipFile` time. -/
def planSource (st : DiskState) (root source : String) (is_splitted : Bool) :
    Except SourceErr ExtractPlan :=
  let merged := merged_zip_fpath root source is_splitted
  let mergeRuns :=
    if is_splitted && !(st.files.contains merged) then 1 else 0
  let audio_subset_dpath := get_audio_subset_dpath root source
  match st.zips.lookup merged with
  | none => .error .zipOpenError
  | some namelist =>
    let flac_subnames := namelist.filter (fun name => endswith name ".flac")
    if flac_subnames.isEmpty then .error .emptyFlacAssert
    else if !(flac_subnames.all
        (fun name => dirname name == dirname flac_subnames.headI)) then
      .error .dirnameAssert
    else
      let src_root := pjoin audio_subset_dpath (dirname flac_subnames.headI)
      let src_fnames_found := (st.fs.dirs.lookup src_root).getD []
      let tgt_fnames_found := (st.fs.dirs.lookup audio_subset_dpath).getD []
      let missing_subnames := flac_subnames.filter (fun subname =>
        !(src_fnames_found.contains (basename subname)) &&
        !(tgt_fnames_found.contains (basename subname)))
      .ok ⟨mergeRuns, flac_subnames, missing_subnames⟩

/-- The per-source loop over the active sources.  Each iteration reads and
writes only paths derived from its own source name, which are distinct
across sources; the loop is therefore embedded as a map over the initial
state (and in the already-fully-extracted situations proved below the body
performs no mutation at all). -/
def planAll (st : DiskState) (root subset : String) :
    Except SourceErr (List ExtractPlan) :=
  (sourceSplitFlags subset).mapM (fun p => planSource st root p.1 p.2)

/-- An "already-fully-extracted" source: its merged archive file exists
(when splitted), the archive is readable, its flac entries are non-empty
and share one directory, and every entry's basename is already listed in
the target audio directory. -/
def sourceFullyReady (st : DiskState) (root source : String)
    (is_splitted : Bool) : Bool :=
  let merged := merged_zip_fpath root source is_splitted
  (!is_splitted || st.files.contains merged) &&
  (match st.zips.lookup merged with
   | none => false
   | some namelist =>
     let flacs := namelist.filter (fun name => endswith name ".flac")
     (!flacs.isEmpty) &&
     flacs.all (fun name => dirname name == dirname flacs.headI) &&
     flacs.all (fun name =>
       ((st.fs.dirs.lookup (get_audio_subset_dpath root source)).getD
         []).contains (basename name)))

/-- The `verify_files` block of the loop body: `tgt_fnames_expected` are
the basenames of the flac entries, `tgt_fnames_found` the listing of the
target audio directory at that point; a `FileNotFoundError` carrying the
number of invalid files is raised when some expected name is absent. -/
def verifyFiles (flac_subnames tgt_listing : List String) :
    Except Nat Unit :=
  let tgt_fnames_expected := flac_subnames.map basename
  let tgt_fnames_invalids :=
    tgt_fnames_expected.filter (fun fname => !(tgt_listing.contains fname))
  if tgt_fnames_invalids.length > 0 then
    .error tgt_fnames_invalids.length
  else
    .ok ()

/-! ## Metadata loader (`_load_wavcaps_dataset`, `_load_json`) -/

/-- A JSON value as manipulated by the loader.  Python floats are not
modelled arithmetically: `flt n` records only that the value went through
`float()`; the loader claims below depend only on column shapes. -/
inductive JVal
  | str (v : String)
  | num (v : Int)
  | flt (v : Int)
  | arr (l : List JVal)

/-- `float(x)` on the numeric values that duration columns hold. -/
def pyFloat : JVal → JVal
  | .num v => .flt v
  | .flt v => .flt v
  | v => v

/-- Python `str(x)` / f-string interpolation for the identifier values
that reach filename construction. -/
def pyStr : JVal → String
  | .str v => v
  | .num v => toString v
  | .flt v => toString v
  | .arr _ => ""

/-- One metadata record: a Python dict as an association list with unique
keys. -/
abbrev Record := List (String × JVal)

/-- Modelled from the spec: `list_dict_to_dict_list(data, key_mode="same")`
from `aac_datasets.utils.collate`, which is not part of the sources given;
per the spec it "converts its list-of-records layout into parallel columns
(column name → ordered list of values, same length across columns)" with
"all records must share identical keys".  The columns are keyed by the
first record's keys; each column collects that key's value from every
record in order. -/
def list_dict_to_dict_list (records : List Record) :
    List (String × List JVal) :=
  match records with
  | [] => []
  | r0 :: _ => r0.map (fun kv => (kv.1, records.filterMap (fun r => r.lookup kv.1)))

/-- `_load_json`: the parsed `data` list converted to columns, together
with its length.  (File reading and JSON parsing are inputs here.) -/
def load_json (records : List Record) : List (String × List JVal) × Nat :=
  (list_dict_to_dict_list records, records.length)

/-- `_WAVCAPS_RAW_COLUMNS`: required plus optional keys of
`_WavCapsRawItem`.  Python derives this from a set union, so its order is
unspecified; appends to distinct columns commute, so the order below is
immaterial. -/
def WAVCAPS_RAW_COLUMNS : List String :=
  ["caption", "duration", "id", "audio", "author", "description",
   "download_link", "file_name", "href", "tags"]

/-- `_DEFAULT_VALUES`. -/
def DEFAULT_VALUES : String → Option JVal
  | "author" => some (.str "")
  | "description" => some (.str "")
  | "download_link" => some (.str "")
  | "href" => some (.str "")
  | "tags" => some (.arr [])
  | _ => none

/-- The `raw_data` dict of `_load_wavcaps_dataset`: one field per key of
`_WAVCAPS_RAW_COLUMNS + ("source", "fname")`, all initialised to `[]`. -/
structure RawData where
  caption : List JVal
  duration : List JVal
  id : List JVal
  audio : List JVal
  author : List JVal
  description : List JVal
  download_link : List JVal
  file_name : List JVal
  href : List JVal
  tags : List JVal
  source : List JVal
  fname : List JVal

/-- The initial `raw_data = {k: [] for k in ...}`. -/
def RawData.empty : RawData :=
  ⟨[], [], [], [], [], [], [], [], [], [], [], []⟩

/-- `raw_data[k] += col` for a known column name `k` (every call site uses
a key of the dict; unknown keys leave the state unchanged and are never
reached). -/
def RawData.addCol (rd : RawData) (k : String) (col : List JVal) : RawData :=
  match k with
  | "caption" => { rd with caption := rd.caption ++ col }
  | "duration" => { rd with duration := rd.duration ++ col }
  | "id" => { rd with id := rd.id ++ col }
  | "audio" => { rd with audio := rd.audio ++ col }
  | "author" => { rd with author := rd.author ++ col }
  | "description" => { rd with description := rd.description ++ col }
  | "download_link" => { rd with download_link := rd.download_link ++ col }
  | "file_name" => { rd with file_name := rd.file_name ++ col }
  | "href" => { rd with href := rd.href ++ col }
  | "tags" => { rd with tags := rd.tags ++ col }
  | "source" => { rd with source := rd.source ++ col }
  | "fname" => { rd with fname := rd.fname ++ col }
  | _ => rd

/-- Errors raised inside `_load_wavcaps_dataset`. -/
inductive LoadErr
  | jsonMissing (source : String)
  | keyError (source : String)
  | invalidColumn (source : String)
  | invalidSource (source : String)
deriving Repr, DecidableEq

/-- The filename column built for one source from `json_data["id"]`,
following the per-source branches of the loader (`KeyError` when the
`id` column is absent, `RuntimeError` for an unknown source name). -/
def sourceFnames (source : String) (json_data : List (String × List JVal)) :
    Except LoadErr (List JVal) :=
  if source == "AudioSet_SL" then
    match json_data.lookup "id" with
    | none => .error (.keyError source)
    | some ids => .ok (ids.map (fun idv => .str (pyReplace (pyStr idv) ".wav" ".flac")))
  else if source == "BBC_Sound_Effects" then
    match json_data.lookup "id" with
    | none => .error (.keyError source)
    | some ids => .ok (ids.map (fun idv => .str (pyStr idv ++ ".flac")))
  else if source == "FreeSound" then
    match json_data.lookup "id" with
    | none => .error (.keyError source)
    | some ids => .ok (ids.map (fun idv => .str (pyStr idv ++ ".flac")))
  else if source == "SoundBible" then
    match json_data.lookup "id" with
    | none => .error (.keyError source)
    | some ids => .ok (ids.map (fun idv => .str (pyStr idv ++ ".flac")))
  else
    .error (.invalidSource source)

/-- One step of the `for k in _WAVCAPS_RAW_COLUMNS` loop: append the json
column when present, else the replicated default, else skip `audio` and
`file_name`, else `RuntimeError`. -/
def rawColumnStep (source : String) (json_data : List (String × List JVal))
    (size : Nat) (rd : RawData) (k : String) : Except LoadErr RawData :=
  match json_data.lookup k with
  | some col => .ok (rd.addCol k col)
  | none =>
    match DEFAULT_VALUES k with
    | some default_val => .ok (rd.addCol k (List.replicate size default_val))
    | none =>
      if k == "audio" || k == "file_name" then .ok rd
      else .error (.invalidColumn source)

/-- The body of the per-source loop of `_load_wavcaps_dataset`: load the
json columns, drop the `audio` column (`json_data.pop("audio", None)`),
append the constructed `fname` column, run the raw-column loop, and append
the `source` column. -/
def processSource (rd : RawData) (source : String) (records : List Record) :
    Except LoadErr RawData := do
  let (json0, size) := load_json records
  let json_data := json0.filter (fun kv => kv.1 ≠ "audio")
  let fnames ← sourceFnames source json_data
  let rd := rd.addCol "fname" fnames
  let rd ← WAVCAPS_RAW_COLUMNS.foldlM (rawColumnStep source json_data size) rd
  .ok (rd.addCol "source" (List.replicate size (.str source)))

/-- The dict returned by `_load_wavcaps_dataset` after the pops: `audio`
and `file_name` dropped, `caption` renamed `captions` and wrapped, and
`duration` coerced to float. -/
structure FinalData where
  captions : List JVal
  duration : List JVal
  id : List JVal
  author : List JVal
  description : List JVal
  download_link : List JVal
  href : List JVal
  tags : List JVal
  source : List JVal
  fname : List JVal

/-- The `FinalData` with all columns empty. -/
def FinalData.empty : FinalData :=
  ⟨[], [], [], [], [], [], [], [], [], []⟩

/-- The `json_paths` source list of `_load_wavcaps_dataset`, filtered by
`_use_source` (the metadata file paths are resolved by the `jsonOf` input
below). -/
def json_sources (subset : String) : List String :=
  (["AudioSet_SL", "BBC_Sound_Effects", "FreeSound", "SoundBible"]).filter
    (fun source => use_source source subset)

/-- `_load_wavcaps_dataset(root, hf_cache_dir, revision, subset)`:
`jsonOf source` is the parsed `data` list of that source's metadata file
(`none` when opening it would fail).  Inactive sources' files are never
read. -/
def load_wavcaps_dataset (jsonOf : String → Option (List Record))
    (subset : String) : Except LoadErr FinalData := do
  let rd ← (json_sources subset).foldlM
    (fun acc source =>
      match jsonOf source with
      | none => Except.error (.jsonMissing source)
      | some records => processSource acc source records)
    RawData.empty
  .ok {
    captions := rd.caption.map (fun caption => .arr [caption])
    duration := rd.duration.map pyFloat
    id := rd.id
    author := rd.author
    description := rd.description
    download_link := rd.download_link
    href := rd.href
    tags := rd.tags
    source := rd.source
    fname := rd.fname }

/-- `size = len(next(iter(raw_data.values())))` in `WavCaps.__init__`:
Python takes the first dict value; whenever the loader returns, every
column has the same length (proved below), so the choice of column is
immaterial and the captions column is used here. -/
def initSize (fd : FinalData) : Nat := fd.captions.length

/-- The columns `WavCaps.__init__` adds to the loaded data before handing
it to the record-collection constructor. -/
structure InitData where
  base : FinalData
  dataset : List JVal
  subset : List JVal
  fpath : List String
  index : List Nat

/-- The `raw_data["dataset"] / ["subset"] / ["fpath"] / ["index"]`
assignments of `WavCaps.__init__`. -/
def initAugment (fd : FinalData) (root subsetName : String) : InitData :=
  let size := initSize fd
  { base := fd
    dataset := List.replicate size (.str "wavcaps")
    subset := List.replicate size (.str subsetName)
    fpath := (fd.source.zip fd.fname).map
      (fun p => pjoin (get_audio_subset_dpath root (pyStr p.1)) (pyStr p.2))
    index := List.range size }

/-- Whether the record `r` has a value for the key `k`. -/
def hasKey (r : Record) (k : String) : Bool := (r.lookup k).isSome

/-- A well-formed parsed metadata file: non-empty, every record has the
required `caption`, `duration` and `id` fields, and all records carry the
same key set (the contract of `key_mode="same"`). -/
def recordsWellFormed (records : List Record) : Bool :=
  (!records.isEmpty) &&
  (["caption", "duration", "id"].all (fun k => hasKey records.headI k)) &&
  records.all (fun r =>
    (records.headI.all (fun kv => hasKey r kv.1)) &&
    (r.all (fun kv => hasKey records.headI kv.1)))

/-- Whether `source`'s metadata file is readable and well-formed under the
file assignment `jsonOf`. -/
def sourceOk (jsonOf : String → Option (List Record)) (source : String) :
    Bool :=
  match jsonOf source with
  | some records => recordsWellFormed records
  | none => false

/-- The total record count of the listed sources under `jsonOf`. -/
def sizesOf (jsonOf : String → Option (List Record)) (srcs : List String) :
    Nat :=
  (srcs.map (fun s => ((jsonOf s).getD []).length)).sum

/-! ## Theorems -/

/-- Claim C10: for the AudioSet_SL source, filename construction applies
Python `str.replace(".wav", ".flac")` to the identifier, which rewrites
every occurrence of `.wav`, not only a trailing extension: the identifier
`a.wavb.wav` yields `a.flacb.flac`, the interior occurrence included. -/
theorem audioset_fname_replace :
    (∀ ids, sourceFnames "AudioSet_SL" [("id", ids)] =
      Except.ok (ids.map (fun idv =>
        JVal.str (pyReplace (pyStr idv) ".wav" ".flac")))) ∧
    sourceFnames "AudioSet_SL" [("id", [JVal.str "a.wavb.wav"])] =
      Except.ok [JVal.str "a.flacb.flac"] :=
  ⟨fun _ => rfl, rfl⟩

/-- Claim C2 (refuted — code bug): for subset `as` the source
AudioSet_SL is active, yet the ignore-pattern list handed to the snapshot
fetch contains the bare pattern `Zip_files/*` (the source comments out the
per-source component), which matches the active source's own archive file
`Zip_files/AudioSet_SL/AudioSet_SL.zip`, so active sources' archives are
excluded from the download. -/
theorem ign_patterns_hit_active_archive :
    use_source "AudioSet_SL" "as" = true ∧
    "Zip_files/*" ∈ ign_patterns "as" ∧
    (ign_patterns "as").any
      (fun pat => globMatch pat "Zip_files/AudioSet_SL/AudioSet_SL.zip") = true := by
  decide

/-- Claim C5 (refuted — code bug): the guard variable `pbar_enabled` is
assigned `are_progress_bars_disabled()`, inverting the intended test.
With progress bars initially enabled and `verbose = 0`, bars stay enabled
during the fetch (no suppression); with bars initially disabled and a
successful fetch, the phase ends with bars enabled (prior state not
restored). -/
theorem pbar_guard_inverted :
    (pbarFetchPhase false 0 false).duringDisabled = false ∧
    (pbarFetchPhase true 0 false).finalDisabled = false ∧
    (pbarFetchPhase true 0 false).raised = false := by
  decide

/-- Claim C6: the dataset-root link step leaves a symlink already
resolving to the current snapshot untouched, replaces (with a warning, a
removal and a re-creation) a symlink resolving elsewhere, and fails
fatally on a non-symlink collision. -/
theorem symlink_step_cases (t snap : String) :
    (buildSymlink (.symlinkTo snap) snap = .ok (.symlinkTo snap, [])) ∧
    (t ≠ snap →
      buildSymlink (.symlinkTo t) snap =
        .ok (.symlinkTo snap, [.warned, .removed, .created snap])) ∧
    (buildSymlink .realDir snap = .error .rootNotSymlink) := by
  refine ⟨?_, ?_, rfl⟩
  · simp [buildSymlink]
  · intro h
    simp [buildSymlink, h]

/-- Claim C6 witness: the stale-symlink case at concrete paths. -/
theorem symlink_step_cases_witness :
    buildSymlink (.symlinkTo "old") "new" =
      .ok (.symlinkTo "new", [.warned, .removed, .created "new"]) :=
  (symlink_step_cases "old" "new").2.1 (by decide)

/-- Claim C4 counterexample: with expected basenames `{a.flac}` and
found files `{a.flac, b.flac}` the two sets differ (an extra found file),
yet verification succeeds — the check is one-directional. -/
theorem verify_ignores_extra_found :
    verifyFiles ["AudioSet_SL/a.flac"] ["a.flac", "b.flac"] = Except.ok () ∧
    "b.flac" ∉ (["AudioSet_SL/a.flac"].map basename) := by
  refine ⟨rfl, by decide⟩

/-- Claim C4 (amended): verification succeeds iff every expected
basename (of the archive flac entries) is present in the target listing,
and otherwise fails with exactly the number of expected names that are
absent; files present but not expected are ignored. -/
theorem verify_files_char (flac_subnames tgt_listing : List String) :
    (verifyFiles flac_subnames tgt_listing = Except.ok () ↔
      ∀ n ∈ flac_subnames, basename n ∈ tgt_listing) ∧
    (∀ k, verifyFiles flac_subnames tgt_listing = Except.error k ↔
      (k = ((flac_subnames.map basename).filter
          (fun fname => !(tgt_listing.contains fname))).length ∧ 0 < k)) := by
  have hiff : (((flac_subnames.map basename).filter
      (fun fname => !(tgt_listing.contains fname))) = []) ↔
      ∀ n ∈ flac_subnames, basename n ∈ tgt_listing := by
    rw [List.filter_eq_nil_iff]
    constructor
    · intro h n hn
      have h2 := h (basename n) (List.mem_map_of_mem _ hn)
      simpa using h2
    · intro h x hx
      obtain ⟨n, hn, rfl⟩ := List.mem_map.mp hx
      simpa using h n hn
  simp only [verifyFiles]
  split_ifs with h
  · constructor
    · simp only [reduceCtorEq, false_iff]
      intro hall
      rw [← hiff] at hall
      rw [hall] at h
      simp at h
    · intro k
      constructor
      · intro hk
        injection hk with hk
        omega
      · rintro ⟨rfl, _⟩
        rfl
  · constructor
    · simp only [true_iff]
      rw [← hiff]
      have hlen : ((flac_subnames.map basename).filter
          (fun fname => !(tgt_listing.contains fname))).length = 0 := by omega
      exact List.eq_nil_of_length_eq_zero hlen
    · intro k
      simp only [reduceCtorEq, false_iff]
      rintro ⟨rfl, hpos⟩
      omega


theorem except_bind_ok {ε α β : Type} (a : α) (f : α → Except ε β) :
    (Except.ok (ε := ε) a >>= f) = f a := rfl

theorem except_bind_error {ε α β : Type} (e : ε) (f : α → Except ε β) :
    (Except.error (α := α) e >>= f) = Except.error e := rfl

/-- Characterization of the `_is_prepared` loop when every consulted
audio directory exists: the result is `true` with no log when no source
mismatches, and `false` with a single log entry for the first mismatching
source otherwise. -/
theorem is_preparedGo_char (fs : FS) (root : String) (srcs : List String)
    (h : ∀ s ∈ srcs, (fs.dirs.lookup (get_audio_subset_dpath root s)).isSome) :
    is_preparedGo fs root srcs =
      match srcs.find? (fun s => !countMatches fs root s) with
      | none => Except.ok (true, [])
      | some s => Except.ok (false, [mismatchLog fs root s]) := by
  induction srcs with
  | nil => rfl
  | cons s rest ih =>
    have hs := h s (List.mem_cons_self s rest)
    obtain ⟨l, hl⟩ := Option.isSome_iff_exists.mp hs
    by_cases hm : countMatches fs root s = true
    · have hexp : EXPECTED_SIZES s = l.length := by
        simpa [countMatches, hl] using hm
      have hfind : (fun x => !countMatches fs root x) s = false := by
        simp [hm]
      simp only [is_preparedGo, FS.listdir, hl, List.find?_cons, hfind,
        except_bind_ok]
      rw [if_neg (fun hne => hne hexp)]
      exact ih (fun x hx => h x (List.mem_cons_of_mem s hx))
    · have hexp : EXPECTED_SIZES s ≠ l.length := by
        simpa [countMatches, hl] using hm
      have hfind : (fun x => !countMatches fs root x) s = true := by
        simp [hm]
      have hlog : mismatchLog fs root s = ⟨s, EXPECTED_SIZES s, l.length⟩ := by
        unfold mismatchLog
        rw [hl]
      simp only [is_preparedGo, FS.listdir, hl, List.find?_cons, hfind,
        except_bind_ok]
      rw [if_pos hexp, hlog]

/-- Claim C3: when every active source's audio directory exists,
`_is_prepared` returns `true` (logging nothing) iff every active source's
file count equals its expected count; with the first mismatching source
`s` it returns `false` and logs `s` with the expected and found counts. -/
theorem is_prepared_char (fs : FS) (root subset : String)
    (h : ∀ s ∈ activeSources subset,
      (fs.dirs.lookup (get_audio_subset_dpath root s)).isSome) :
    (is_prepared fs root subset =
      match (activeSources subset).find? (fun s => !countMatches fs root s) with
      | none => Except.ok (true, [])
      | some s => Except.ok (false, [mismatchLog fs root s])) ∧
    ((activeSources subset).find? (fun s => !countMatches fs root s) = none ↔
      ∀ s ∈ activeSources subset, countMatches fs root s = true) := by
  refine ⟨is_preparedGo_char fs root _ h, ?_⟩
  rw [List.find?_eq_none]
  simp

/-- Claim C3 witness: an existing but empty SoundBible audio directory
yields `false` with the mismatch log. -/
theorem is_prepared_char_witness :
    is_prepared ⟨[("./WavCaps/Audio/SoundBible", [])]⟩ "." "sb" =
      Except.ok (false, [⟨"SoundBible", 1320, 0⟩]) := by
  have h := (is_prepared_char ⟨[("./WavCaps/Audio/SoundBible", [])]⟩ "." "sb"
    (by decide)).1
  rw [h]
  rfl

/-- Claim C1 (amended): the preparation gate raises the not-prepared
`RuntimeError` exactly when the pre-flight check returns `False` (an
audio directory exists but mismatches), propagates the pre-flight
`FileNotFoundError` exactly when the check raises it (nothing downloaded
yet — so preparation does **not** proceed to download on a fresh root),
and proceeds exactly when the check returns `True`; when every active
audio directory exists the listing error cannot occur. -/
theorem prepare_gate_char (fs : FS) (root subset : String) :
    (prepareGate fs root subset = .notPreparedError ↔
      ∃ logs, is_prepared fs root subset = .ok (false, logs)) ∧
    (prepareGate fs root subset = .listDirError ↔
      is_prepared fs root subset = .error .fileNotFound) ∧
    (prepareGate fs root subset = .proceed ↔
      ∃ logs, is_prepared fs root subset = .ok (true, logs)) ∧
    ((∀ s ∈ activeSources subset,
        (fs.dirs.lookup (get_audio_subset_dpath root s)).isSome) →
      prepareGate fs root subset ≠ .listDirError) := by
  rcases hres : is_prepared fs root subset with e | ⟨b, logs⟩
  · cases e
    refine ⟨?_, ?_, ?_, ?_⟩
    · simp [prepareGate, hres]
    · simp [prepareGate, hres]
    · simp [prepareGate, hres]
    · intro hdirs
      have hc := is_preparedGo_char fs root (activeSources subset) hdirs
      have h2 : is_prepared fs root subset = Except.error FsErr.fileNotFound :=
        hres
      unfold is_prepared at h2
      rw [hc] at h2
      revert h2
      split <;> simp
  · cases b
    · refine ⟨?_, ?_, ?_, ?_⟩ <;> simp [prepareGate, hres]
    · refine ⟨?_, ?_, ?_, ?_⟩ <;> simp [prepareGate, hres]

/-- Claim C1 witness: with all active directories present the gate does
not abort with a listing error. -/
theorem prepare_gate_char_witness :
    prepareGate ⟨[("./WavCaps/Audio/SoundBible", [])]⟩ "." "sb" ≠ .listDirError :=
  (prepare_gate_char ⟨[("./WavCaps/Audio/SoundBible", [])]⟩ "." "sb").2.2.2
    (by decide)

/-- Claim C1 counterexample: on a fresh root (nothing downloaded, no
audio directory exists) preparation does not proceed to download — the
pre-flight `os.listdir` error aborts it. -/
theorem prepare_fresh_root_aborts :
    prepareGate ⟨[]⟩ "." "as" = .listDirError ∧
    prepareGate ⟨[]⟩ "." "as" ≠ .proceed := by decide

/-- An already-fully-extracted source produces a plan with zero merge
subprocess invocations and an empty extraction set. -/
theorem planSource_ready (st : DiskState) (root source : String)
    (is_splitted : Bool)
    (h : sourceFullyReady st root source is_splitted = true) :
    ∃ flacs, planSource st root source is_splitted =
      Except.ok ⟨0, flacs, []⟩ := by
  simp only [sourceFullyReady] at h
  rcases hz : st.zips.lookup (merged_zip_fpath root source is_splitted) with
    _ | namelist
  · rw [hz] at h
    simp at h
  · rw [hz] at h
    simp only [Bool.and_eq_true, Bool.or_eq_true, Bool.not_eq_true'] at h
    obtain ⟨hmerged, ⟨hne, hdir⟩, hall⟩ := h
    refine ⟨namelist.filter (fun name => endswith name ".flac"), ?_⟩
    simp only [planSource, hz]
    have hruns : (if (is_splitted &&
        !(st.files.contains (merged_zip_fpath root source is_splitted))) = true
        then 1 else 0) = 0 := by
      cases hsp : is_splitted
      · simp
      · rcases hmerged with hfalse | hcont
        · rw [hsp] at hfalse
          cases hfalse
        · rw [hsp] at hcont
          simp [List.mem_of_elem_eq_true hcont]
    have hmiss : (namelist.filter (fun name => endswith name ".flac")).filter
        (fun subname =>
          !((st.fs.dirs.lookup (pjoin (get_audio_subset_dpath root source)
              (dirname (namelist.filter
                (fun name => endswith name ".flac")).headI))).getD
            []).contains (basename subname) &&
          !((st.fs.dirs.lookup (get_audio_subset_dpath root source)).getD
            []).contains (basename subname)) = [] := by
      rw [List.filter_eq_nil_iff]
      intro n hn
      have hc := (List.all_eq_true.mp hall) n hn
      simp only [Bool.and_eq_true, Bool.not_eq_true']
      intro hcontra
      rw [hc] at hcontra
      cases hcontra.2
    rw [if_neg (by simp [hne]), if_neg (by simp [hdir]), hruns, hmiss]

theorem planAll_ready_go (st : DiskState) (root : String)
    (l : List (String × Bool))
    (h : ∀ p ∈ l, sourceFullyReady st root p.1 p.2 = true) :
    ∃ plans, l.mapM (fun p => planSource st root p.1 p.2) = Except.ok plans ∧
      plans.all (fun pl => pl.mergeRuns == 0 && pl.missing.isEmpty) = true := by
  induction l with
  | nil => exact ⟨[], rfl, rfl⟩
  | cons p rest ih =>
    obtain ⟨flacs, hp⟩ := planSource_ready st root p.1 p.2
      (h p (List.mem_cons_self p rest))
    obtain ⟨plans, hps, hall⟩ := ih
      (fun q hq => h q (List.mem_cons_of_mem p hq))
    refine ⟨⟨0, flacs, []⟩ :: plans, ?_, ?_⟩
    · simp only [List.mapM_cons, hp, hps, except_bind_ok]
      rfl
    · simp [hall]

/-- Claim C7: re-running the merge/extract loop on a state where every
active source is already fully extracted (merged archive present, every
flac basename already in the target audio directory) performs zero merges
and plans zero extractions — preparation is idempotent there. -/
theorem prepare_already_extracted (st : DiskState) (root subset : String)
    (h : ∀ p ∈ sourceSplitFlags subset,
      sourceFullyReady st root p.1 p.2 = true) :
    ∃ plans, planAll st root subset = Except.ok plans ∧
      plans.all (fun pl => pl.mergeRuns == 0 && pl.missing.isEmpty) = true :=
  planAll_ready_go st root (sourceSplitFlags subset) h

/-- Claim C7 witness: a concrete fully-extracted SoundBible root. -/
theorem prepare_already_extracted_witness :
    ∃ plans, planAll
      ⟨⟨[("./WavCaps/Audio/SoundBible", ["x.flac"])]⟩, [],
        [("./WavCaps/Zip_files/SoundBible/SoundBible.zip",
          ["SoundBible/x.flac"])]⟩ "." "sb" = Except.ok plans ∧
      plans.all (fun pl => pl.mergeRuns == 0 && pl.missing.isEmpty) = true :=
  prepare_already_extracted
    ⟨⟨[("./WavCaps/Audio/SoundBible", ["x.flac"])]⟩, [],
      [("./WavCaps/Zip_files/SoundBible/SoundBible.zip",
        ["SoundBible/x.flac"])]⟩ "." "sb" (by decide)

theorem lookup_filter {α : Type} (p : String → Bool) (k : String)
    (l : List (String × α)) :
    (l.filter (fun kv => p kv.1)).lookup k =
      if p k then l.lookup k else none := by
  induction l with
  | nil => simp [List.lookup]
  | cons kv tl ih =>
    obtain ⟨k', v⟩ := kv
    by_cases hk : k = k'
    · subst hk
      by_cases hp : p k
      · rw [List.filter_cons_of_pos (by simpa using hp)]
        simp [List.lookup, hp]
      · rw [List.filter_cons_of_neg (by simpa using hp)]
        rw [ih]
        simp [hp]
    · have hbeq : (k == k') = false := by simpa using hk
      by_cases hp : p k'
      · rw [List.filter_cons_of_pos (by simpa using hp)]
        simpa [List.lookup, hbeq] using ih
      · rw [List.filter_cons_of_neg (by simpa using hp)]
        rw [ih]
        by_cases hpk : p k
        · simp [List.lookup, hbeq, hpk]
        · simp [hpk]

theorem lookup_map_keys {β γ : Type} (r0 : List (String × β))
    (F : String → γ) (k : String) :
    (r0.map (fun kv => (kv.1, F kv.1))).lookup k =
      (r0.lookup k).map (fun v => F k) := by
  induction r0 with
  | nil => rfl
  | cons kv tl ih =>
    obtain ⟨k', v⟩ := kv
    by_cases hk : k = k'
    · subst hk
      simp [List.lookup]
    · have hbeq : (k == k') = false := by simpa using hk
      simp [List.lookup, hbeq, ih]

theorem length_filterMap_lookup (records : List Record) (k : String)
    (h : ∀ r ∈ records, (r.lookup k).isSome) :
    (records.filterMap (fun r => r.lookup k)).length = records.length := by
  induction records with
  | nil => rfl
  | cons r tl ih =>
    obtain ⟨v, hv⟩ := Option.isSome_iff_exists.mp
      (h r (List.mem_cons_self r tl))
    simp only [List.filterMap_cons, hv, List.length_cons]
    rw [ih (fun q hq => h q (List.mem_cons_of_mem r hq))]

theorem hasKey_mem_keys (r : Record) (k : String) (h : hasKey r k = true) :
    ∃ v, (k, v) ∈ r := by
  induction r with
  | nil => cases h
  | cons kv tl ih =>
    obtain ⟨k', v⟩ := kv
    by_cases hk : k = k'
    · subst hk
      exact ⟨v, List.mem_cons_self _ _⟩
    · have hbeq : (k == k') = false := by simpa using hk
      simp only [hasKey, List.lookup, hbeq] at h
      obtain ⟨w, hw⟩ := ih h
      exact ⟨w, List.mem_cons_of_mem _ hw⟩

theorem except_pure {ε α : Type} (a : α) :
    (pure a : Except ε α) = Except.ok a := rfl

theorem recordsWellFormed_spec (records : List Record)
    (h : recordsWellFormed records = true) :
    records ≠ [] ∧
    hasKey records.headI "caption" = true ∧
    hasKey records.headI "duration" = true ∧
    hasKey records.headI "id" = true ∧
    (∀ r ∈ records, ∀ k, hasKey records.headI k = true →
      hasKey r k = true) := by
  simp only [recordsWellFormed, Bool.and_eq_true, List.all_eq_true,
    Bool.not_eq_true'] at h
  obtain ⟨⟨hne, hreq⟩, hsame⟩ := h
  refine ⟨?_, hreq "caption" (by simp), hreq "duration" (by simp),
    hreq "id" (by simp), ?_⟩
  · intro habs
    rw [habs] at hne
    cases hne
  · intro r hr k hk
    obtain ⟨v, hv⟩ := hasKey_mem_keys _ _ hk
    exact (hsame r hr).1 (k, v) hv

theorem lookup_filter_audio {α : Type} (k : String) (hk : k ≠ "audio")
    (l : List (String × α)) :
    (l.filter (fun kv => kv.1 ≠ "audio")).lookup k = l.lookup k := by
  have h := lookup_filter (fun x => decide (x ≠ "audio")) k l
  simpa [hk] using h

theorem lookup_filter_audio_self {α : Type} (l : List (String × α)) :
    (l.filter (fun kv => kv.1 ≠ "audio")).lookup "audio" = none := by
  have h := lookup_filter (fun x => decide (x ≠ "audio")) "audio" l
  simpa using h

theorem ldtdl_lookup (records : List Record) (k : String)
    (hne : records ≠ []) :
    (list_dict_to_dict_list records).lookup k =
      (records.headI.lookup k).map
        (fun v => records.filterMap (fun r => r.lookup k)) := by
  cases records with
  | nil => exact absurd rfl hne
  | cons r0 tl =>
    exact lookup_map_keys r0
      (fun key => (r0 :: tl).filterMap (fun r => r.lookup key)) k

theorem step_opt (source : String) (jd : List (String × List JVal))
    (n : Nat) (k : String) (dv : JVal) (hdv : DEFAULT_VALUES k = some dv)
    (hcol : ∀ col, jd.lookup k = some col → col.length = n) :
    ∃ col, col.length = n ∧
      ∀ acc, rawColumnStep source jd n acc k =
        Except.ok (acc.addCol k col) := by
  rcases hl : jd.lookup k with _ | col
  · exact ⟨List.replicate n dv, by simp,
      fun acc => by simp [rawColumnStep, hl, hdv]⟩
  · exact ⟨col, hcol col hl, fun acc => by simp [rawColumnStep, hl]⟩

/-- One well-formed source adds exactly its record count to every
retained column of the raw data. -/
theorem processSource_ok (rd : RawData) (source : String)
    (records : List Record) (hsrc : source ∈ SOURCES)
    (hwf : recordsWellFormed records = true) :
    ∃ rd', processSource rd source records = Except.ok rd' ∧
      rd'.caption.length = rd.caption.length + records.length ∧
      rd'.duration.length = rd.duration.length + records.length ∧
      rd'.id.length = rd.id.length + records.length ∧
      rd'.author.length = rd.author.length + records.length ∧
      rd'.description.length = rd.description.length + records.length ∧
      rd'.download_link.length = rd.download_link.length + records.length ∧
      rd'.href.length = rd.href.length + records.length ∧
      rd'.tags.length = rd.tags.length + records.length ∧
      rd'.source.length = rd.source.length + records.length ∧
      rd'.fname.length = rd.fname.length + records.length := by
  obtain ⟨hne, hcapK, hdurK, hidK, hsame⟩ := recordsWellFormed_spec records hwf
  have hSome : ∀ k : String, k ≠ "audio" → hasKey records.headI k = true →
      ((list_dict_to_dict_list records).filter
        (fun kv => kv.1 ≠ "audio")).lookup k =
        some (records.filterMap (fun r => r.lookup k)) := by
    intro k hka hk
    rw [lookup_filter_audio k hka, ldtdl_lookup records k hne]
    obtain ⟨v, hv⟩ := Option.isSome_iff_exists.mp hk
    rw [hv]
    rfl
  have hLen : ∀ k : String, hasKey records.headI k = true →
      (records.filterMap (fun r => r.lookup k)).length = records.length := by
    intro k hk
    exact length_filterMap_lookup records k (fun r hr => by
      have := hsame r hr k hk
      unfold hasKey at this
      simpa using this)
  have hNone : ∀ k : String, k ≠ "audio" → hasKey records.headI k = false →
      ((list_dict_to_dict_list records).filter
        (fun kv => kv.1 ≠ "audio")).lookup k = none := by
    intro k hka hk
    rw [lookup_filter_audio k hka, ldtdl_lookup records k hne]
    have hnone : records.headI.lookup k = none := by
      rcases ho : records.headI.lookup k with _ | v
      · rfl
      · unfold hasKey at hk
        rw [ho] at hk
        cases hk
    rw [hnone]
    rfl
  have hcolLen : ∀ k : String, k ≠ "audio" → ∀ col,
      ((list_dict_to_dict_list records).filter
        (fun kv => kv.1 ≠ "audio")).lookup k = some col →
      col.length = records.length := by
    intro k hka col hl
    by_cases hk : hasKey records.headI k = true
    · rw [hSome k hka hk] at hl
      injection hl with hcol
      rw [← hcol]
      exact hLen k hk
    · rw [hNone k hka (by simpa using hk)] at hl
      cases hl
  have hfn : ∃ fnames : List JVal,
      sourceFnames source ((list_dict_to_dict_list records).filter
        (fun kv => kv.1 ≠ "audio")) = Except.ok fnames ∧
      fnames.length = records.length := by
    have hid' := hSome "id" (by decide) hidK
    have hidlen := hLen "id" hidK
    fin_cases hsrc
    · refine ⟨(records.filterMap (fun r => r.lookup "id")).map
        (fun idv => JVal.str (pyReplace (pyStr idv) ".wav" ".flac")), ?_, ?_⟩
      · unfold sourceFnames
        rw [hid']
        rfl
      · simp [hidlen]
    · refine ⟨(records.filterMap (fun r => r.lookup "id")).map
        (fun idv => JVal.str (pyStr idv ++ ".flac")), ?_, ?_⟩
      · unfold sourceFnames
        rw [hid']
        rfl
      · simp [hidlen]
    · refine ⟨(records.filterMap (fun r => r.lookup "id")).map
        (fun idv => JVal.str (pyStr idv ++ ".flac")), ?_, ?_⟩
      · unfold sourceFnames
        rw [hid']
        rfl
      · simp [hidlen]
    · refine ⟨(records.filterMap (fun r => r.lookup "id")).map
        (fun idv => JVal.str (pyStr idv ++ ".flac")), ?_, ?_⟩
      · unfold sourceFnames
        rw [hid']
        rfl
      · simp [hidlen]
  obtain ⟨fnames, hfneq, hfnlen⟩ := hfn
  have eq_cap : ∀ acc, rawColumnStep source
      ((list_dict_to_dict_list records).filter (fun kv => kv.1 ≠ "audio"))
      records.length acc "caption" = Except.ok (acc.addCol "caption"
        (records.filterMap (fun r => r.lookup "caption"))) :=
    fun acc => by
      unfold rawColumnStep
      rw [hSome "caption" (by decide) hcapK]
  have eq_dur : ∀ acc, rawColumnStep source
      ((list_dict_to_dict_list records).filter (fun kv => kv.1 ≠ "audio"))
      records.length acc "duration" = Except.ok (acc.addCol "duration"
        (records.filterMap (fun r => r.lookup "duration"))) :=
    fun acc => by
      unfold rawColumnStep
      rw [hSome "duration" (by decide) hdurK]
  have eq_id : ∀ acc, rawColumnStep source
      ((list_dict_to_dict_list records).filter (fun kv => kv.1 ≠ "audio"))
      records.length acc "id" = Except.ok (acc.addCol "id"
        (records.filterMap (fun r => r.lookup "id"))) :=
    fun acc => by
      unfold rawColumnStep
      rw [hSome "id" (by decide) hidK]
  have eq_aud : ∀ acc, rawColumnStep source
      ((list_dict_to_dict_list records).filter (fun kv => kv.1 ≠ "audio"))
      records.length acc "audio" = Except.ok acc :=
    fun acc => by
      unfold rawColumnStep
      rw [lookup_filter_audio_self]
      rfl
  obtain ⟨colAu, hAuLen, eq_author⟩ := step_opt source _ records.length
    "author" (JVal.str "") rfl (hcolLen "author" (by decide))
  obtain ⟨colDe, hDeLen, eq_desc⟩ := step_opt source _ records.length
    "description" (JVal.str "") rfl (hcolLen "description" (by decide))
  obtain ⟨colDo, hDoLen, eq_down⟩ := step_opt source _ records.length
    "download_link" (JVal.str "") rfl (hcolLen "download_link" (by decide))
  obtain ⟨colHr, hHrLen, eq_href⟩ := step_opt source _ records.length
    "href" (JVal.str "") rfl (hcolLen "href" (by decide))
  obtain ⟨colTg, hTgLen, eq_tags⟩ := step_opt source _ records.length
    "tags" (JVal.arr []) rfl (hcolLen "tags" (by decide))
  rcases hfl : ((list_dict_to_dict_list records).filter
      (fun kv => kv.1 ≠ "audio")).lookup "file_name" with _ | colF
  · have eq_file : ∀ acc, rawColumnStep source
        ((list_dict_to_dict_list records).filter (fun kv => kv.1 ≠ "audio"))
        records.length acc "file_name" = Except.ok acc :=
      fun acc => by
        unfold rawColumnStep
        rw [hfl]
        rfl
    refine ⟨((((((((((rd.addCol "fname" fnames).addCol "caption"
      (records.filterMap (fun r => r.lookup "caption"))).addCol "duration"
      (records.filterMap (fun r => r.lookup "duration"))).addCol "id"
      (records.filterMap (fun r => r.lookup "id"))).addCol "author"
      colAu).addCol "description" colDe).addCol "download_link"
      colDo).addCol "href" colHr).addCol "tags" colTg).addCol "source"
      (List.replicate records.length (JVal.str source))),
      ?_, ?_, ?_, ?_, ?_, ?_, ?_, ?_, ?_, ?_, ?_⟩
    · simp only [processSource, load_json, hfneq, eq_cap, eq_dur, eq_id,
        eq_aud, eq_author, eq_desc, eq_down, eq_file, eq_href, eq_tags,
        WAVCAPS_RAW_COLUMNS, List.foldlM_cons, List.foldlM_nil,
        except_bind_ok, except_pure]
    · change (rd.caption ++
        records.filterMap (fun r => r.lookup "caption")).length =
        rd.caption.length + records.length
      rw [List.length_append, hLen "caption" hcapK]
    · change (rd.duration ++
        records.filterMap (fun r => r.lookup "duration")).length =
        rd.duration.length + records.length
      rw [List.length_append, hLen "duration" hdurK]
    · change (rd.id ++ records.filterMap (fun r => r.lookup "id")).length =
        rd.id.length + records.length
      rw [List.length_append, hLen "id" hidK]
    · change (rd.author ++ colAu).length = rd.author.length + records.length
      rw [List.length_append, hAuLen]
    · change (rd.description ++ colDe).length =
        rd.description.length + records.length
      rw [List.length_append, hDeLen]
    · change (rd.download_link ++ colDo).length =
        rd.download_link.length + records.length
      rw [List.length_append, hDoLen]
    · change (rd.href ++ colHr).length = rd.href.length + records.length
      rw [List.length_append, hHrLen]
    · change (rd.tags ++ colTg).length = rd.tags.length + records.length
      rw [List.length_append, hTgLen]
    · change (rd.source ++
        List.replicate records.length (JVal.str source)).length =
        rd.source.length + records.length
      rw [List.length_append, List.length_replicate]
    · change (rd.fname ++ fnames).length = rd.fname.length + records.length
      rw [List.length_append, hfnlen]
  · have eq_file : ∀ acc, rawColumnStep source
        ((list_dict_to_dict_list records).filter (fun kv => kv.1 ≠ "audio"))
        records.length acc "file_name" =
        Except.ok (acc.addCol "file_name" colF) :=
      fun acc => by
        unfold rawColumnStep
        rw [hfl]
    refine ⟨(((((((((((rd.addCol "fname" fnames).addCol "caption"
      (records.filterMap (fun r => r.lookup "caption"))).addCol "duration"
      (records.filterMap (fun r => r.lookup "duration"))).addCol "id"
      (records.filterMap (fun r => r.lookup "id"))).addCol "author"
      colAu).addCol "description" colDe).addCol "download_link"
      colDo).addCol "file_name" colF).addCol "href" colHr).addCol "tags"
      colTg).addCol "source"
      (List.replicate records.length (JVal.str source))),
      ?_, ?_, ?_, ?_, ?_, ?_, ?_, ?_, ?_, ?_, ?_⟩
    · simp only [processSource, load_json, hfneq, eq_cap, eq_dur, eq_id,
        eq_aud, eq_author, eq_desc, eq_down, eq_file, eq_href, eq_tags,
        WAVCAPS_RAW_COLUMNS, List.foldlM_cons, List.foldlM_nil,
        except_bind_ok, except_pure]
    · change (rd.caption ++
        records.filterMap (fun r => r.lookup "caption")).length =
        rd.caption.length + records.length
      rw [List.length_append, hLen "caption" hcapK]
    · change (rd.duration ++
        records.filterMap (fun r => r.lookup "duration")).length =
        rd.duration.length + records.length
      rw [List.length_append, hLen "duration" hdurK]
    · change (rd.id ++ records.filterMap (fun r => r.lookup "id")).length =
        rd.id.length + records.length
      rw [List.length_append, hLen "id" hidK]
    · change (rd.author ++ colAu).length = rd.author.length + records.length
      rw [List.length_append, hAuLen]
    · change (rd.description ++ colDe).length =
        rd.description.length + records.length
      rw [List.length_append, hDeLen]
    · change (rd.download_link ++ colDo).length =
        rd.download_link.length + records.length
      rw [List.length_append, hDoLen]
    · change (rd.href ++ colHr).length = rd.href.length + records.length
      rw [List.length_append, hHrLen]
    · change (rd.tags ++ colTg).length = rd.tags.length + records.length
      rw [List.length_append, hTgLen]
    · change (rd.source ++
        List.replicate records.length (JVal.str source)).length =
        rd.source.length + records.length
      rw [List.length_append, List.length_replicate]
    · change (rd.fname ++ fnames).length = rd.fname.length + records.length
      rw [List.length_append, hfnlen]

/-- The source fold of the loader: well-formed sources accumulate their
record counts on every column. -/
theorem load_go (jsonOf : String → Option (List Record))
    (srcs : List String) (hsub : ∀ s ∈ srcs, s ∈ SOURCES)
    (h : ∀ s ∈ srcs, sourceOk jsonOf s = true) (rd : RawData) :
    ∃ rd', srcs.foldlM (fun acc source =>
        match jsonOf source with
        | none => Except.error (LoadErr.jsonMissing source)
        | some records => processSource acc source records) rd =
      Except.ok rd' ∧
      rd'.caption.length = rd.caption.length + sizesOf jsonOf srcs ∧
      rd'.duration.length = rd.duration.length + sizesOf jsonOf srcs ∧
      rd'.id.length = rd.id.length + sizesOf jsonOf srcs ∧
      rd'.author.length = rd.author.length + sizesOf jsonOf srcs ∧
      rd'.description.length = rd.description.length + sizesOf jsonOf srcs ∧
      rd'.download_link.length =
        rd.download_link.length + sizesOf jsonOf srcs ∧
      rd'.href.length = rd.href.length + sizesOf jsonOf srcs ∧
      rd'.tags.length = rd.tags.length + sizesOf jsonOf srcs ∧
      rd'.source.length = rd.source.length + sizesOf jsonOf srcs ∧
      rd'.fname.length = rd.fname.length + sizesOf jsonOf srcs := by
  induction srcs generalizing rd with
  | nil =>
    refine ⟨rd, rfl, ?_, ?_, ?_, ?_, ?_, ?_, ?_, ?_, ?_, ?_⟩ <;>
      simp [sizesOf]
  | cons s ss ih =>
    have hs := h s (List.mem_cons_self s ss)
    rcases hj : jsonOf s with _ | records
    · unfold sourceOk at hs
      rw [hj] at hs
      cases hs
    · have hwf : recordsWellFormed records = true := by
        unfold sourceOk at hs
        rw [hj] at hs
        exact hs
      obtain ⟨rd1, hrd1, l1, l2, l3, l4, l5, l6, l7, l8, l9, l10⟩ :=
        processSource_ok rd s records (hsub s (List.mem_cons_self s ss)) hwf
      obtain ⟨rd', hrd', m1, m2, m3, m4, m5, m6, m7, m8, m9, m10⟩ :=
        ih (fun q hq => hsub q (List.mem_cons_of_mem s hq))
          (fun q hq => h q (List.mem_cons_of_mem s hq)) rd1
      have hsz : sizesOf jsonOf (s :: ss) =
          records.length + sizesOf jsonOf ss := by
        simp [sizesOf, hj]
      refine ⟨rd', ?_, ?_, ?_, ?_, ?_, ?_, ?_, ?_, ?_, ?_, ?_⟩
      · simp only [List.foldlM_cons, hj, hrd1, except_bind_ok]
        exact hrd'
      · rw [hsz]; omega
      · rw [hsz]; omega
      · rw [hsz]; omega
      · rw [hsz]; omega
      · rw [hsz]; omega
      · rw [hsz]; omega
      · rw [hsz]; omega
      · rw [hsz]; omega
      · rw [hsz]; omega
      · rw [hsz]; omega

/-- Claim C8: for a subset activating at least one source, with every
active source's metadata file readable and well-formed (optional columns
may be absent), the loader succeeds and every column of the returned
table has length equal to the sum of the active sources' record counts. -/
theorem load_wavcaps_columns (jsonOf : String → Option (List Record))
    (subset : String) (hact : json_sources subset ≠ [])
    (h : ∀ s ∈ json_sources subset, sourceOk jsonOf s = true) :
    ∃ fd, load_wavcaps_dataset jsonOf subset = Except.ok fd ∧
      fd.captions.length = sizesOf jsonOf (json_sources subset) ∧
      fd.duration.length = sizesOf jsonOf (json_sources subset) ∧
      fd.id.length = sizesOf jsonOf (json_sources subset) ∧
      fd.author.length = sizesOf jsonOf (json_sources subset) ∧
      fd.description.length = sizesOf jsonOf (json_sources subset) ∧
      fd.download_link.length = sizesOf jsonOf (json_sources subset) ∧
      fd.href.length = sizesOf jsonOf (json_sources subset) ∧
      fd.tags.length = sizesOf jsonOf (json_sources subset) ∧
      fd.source.length = sizesOf jsonOf (json_sources subset) ∧
      fd.fname.length = sizesOf jsonOf (json_sources subset) := by
  have hsub : ∀ s ∈ json_sources subset, s ∈ SOURCES := by
    intro s hs
    exact (List.mem_filter.mp hs).1
  obtain ⟨rd', hfold, m1, m2, m3, m4, m5, m6, m7, m8, m9, m10⟩ :=
    load_go jsonOf (json_sources subset) hsub h RawData.empty
  refine ⟨{ captions := rd'.caption.map (fun caption => JVal.arr [caption])
            duration := rd'.duration.map pyFloat
            id := rd'.id
            author := rd'.author
            description := rd'.description
            download_link := rd'.download_link
            href := rd'.href
            tags := rd'.tags
            source := rd'.source
            fname := rd'.fname },
    ?_, ?_, ?_, ?_, ?_, ?_, ?_, ?_, ?_, ?_, ?_⟩
  · simp only [load_wavcaps_dataset, hfold, except_bind_ok]
  · simp only [List.length_map]
    rw [m1]
    simp [RawData.empty]
  · simp only [List.length_map]
    rw [m2]
    simp [RawData.empty]
  · rw [m3]
    simp [RawData.empty]
  · rw [m4]
    simp [RawData.empty]
  · rw [m5]
    simp [RawData.empty]
  · rw [m6]
    simp [RawData.empty]
  · rw [m7]
    simp [RawData.empty]
  · rw [m8]
    simp [RawData.empty]
  · rw [m9]
    simp [RawData.empty]
  · rw [m10]
    simp [RawData.empty]

/-- Claim C8 witness: a single-record SoundBible metadata file. -/
theorem load_wavcaps_columns_witness :
    ∃ fd, load_wavcaps_dataset
      (fun s => if s == "SoundBible" then
        some [[("caption", JVal.str "a"), ("duration", JVal.num 5),
          ("id", JVal.str "x")]] else none) "sb" = Except.ok fd ∧
      fd.captions.length = sizesOf
        (fun s => if s == "SoundBible" then
          some [[("caption", JVal.str "a"), ("duration", JVal.num 5),
            ("id", JVal.str "x")]] else none) (json_sources "sb") ∧
      fd.duration.length = sizesOf
        (fun s => if s == "SoundBible" then
          some [[("caption", JVal.str "a"), ("duration", JVal.num 5),
            ("id", JVal.str "x")]] else none) (json_sources "sb") ∧
      fd.id.length = sizesOf
        (fun s => if s == "SoundBible" then
          some [[("caption", JVal.str "a"), ("duration", JVal.num 5),
            ("id", JVal.str "x")]] else none) (json_sources "sb") ∧
      fd.author.length = sizesOf
        (fun s => if s == "SoundBible" then
          some [[("caption", JVal.str "a"), ("duration", JVal.num 5),
            ("id", JVal.str "x")]] else none) (json_sources "sb") ∧
      fd.description.length = sizesOf
        (fun s => if s == "SoundBible" then
          some [[("caption", JVal.str "a"), ("duration", JVal.num 5),
            ("id", JVal.str "x")]] else none) (json_sources "sb") ∧
      fd.download_link.length = sizesOf
        (fun s => if s == "SoundBible" then
          some [[("caption", JVal.str "a"), ("duration", JVal.num 5),
            ("id", JVal.str "x")]] else none) (json_sources "sb") ∧
      fd.href.length = sizesOf
        (fun s => if s == "SoundBible" then
          some [[("caption", JVal.str "a"), ("duration", JVal.num 5),
            ("id", JVal.str "x")]] else none) (json_sources "sb") ∧
      fd.tags.length = sizesOf
        (fun s => if s == "SoundBible" then
          some [[("caption", JVal.str "a"), ("duration", JVal.num 5),
            ("id", JVal.str "x")]] else none) (json_sources "sb") ∧
      fd.source.length = sizesOf
        (fun s => if s == "SoundBible" then
          some [[("caption", JVal.str "a"), ("duration", JVal.num 5),
            ("id", JVal.str "x")]] else none) (json_sources "sb") ∧
      fd.fname.length = sizesOf
        (fun s => if s == "SoundBible" then
          some [[("caption", JVal.str "a"), ("duration", JVal.num 5),
            ("id", JVal.str "x")]] else none) (json_sources "sb") :=
  load_wavcaps_columns
    (fun s => if s == "SoundBible" then
      some [[("caption", JVal.str "a"), ("duration", JVal.num 5),
        ("id", JVal.str "x")]] else none) "sb" (by decide) (by decide)

/-- Claim C9: for a subset outside the declared enumeration the source
filter rejects every source, the loader raises nothing and returns a
table whose columns are all empty, and the construction-time size and
added columns are all empty — a silently empty dataset. -/
theorem unknown_subset_empty (subset : String)
    (h : subset ∉ ["as", "bbc", "fsd", "sb", "as_bbc_sb"])
    (jsonOf : String → Option (List Record)) (root : String) :
    (∀ source, use_source source subset = false) ∧
    load_wavcaps_dataset jsonOf subset = Except.ok FinalData.empty ∧
    initSize FinalData.empty = 0 ∧
    initAugment FinalData.empty root subset =
      ⟨FinalData.empty, [], [], [], []⟩ := by
  have hs : ∀ x ∈ ["as", "bbc", "fsd", "sb", "as_bbc_sb"], subset ≠ x :=
    fun x hx he => h (he ▸ hx)
  have b1 : (subset == "as") = false :=
    beq_eq_false_iff_ne.mpr (hs "as" (by simp))
  have b2 : (subset == "bbc") = false :=
    beq_eq_false_iff_ne.mpr (hs "bbc" (by simp))
  have b3 : (subset == "fsd") = false :=
    beq_eq_false_iff_ne.mpr (hs "fsd" (by simp))
  have b4 : (subset == "sb") = false :=
    beq_eq_false_iff_ne.mpr (hs "sb" (by simp))
  have b5 : (subset == "as_bbc_sb") = false :=
    beq_eq_false_iff_ne.mpr (hs "as_bbc_sb" (by simp))
  have huse : ∀ source, use_source source subset = false := by
    intro source
    simp [use_source, b1, b2, b3, b4, b5]
  have hjs : json_sources subset = [] := by
    simp [json_sources, huse]
  refine ⟨huse, ?_, rfl, rfl⟩
  simp only [load_wavcaps_dataset, hjs, List.foldlM_nil]
  rfl

/-- Claim C9 witness: the undeclared subset name `train`. -/
theorem unknown_subset_empty_witness :
    (∀ source, use_source source "train" = false) ∧
    load_wavcaps_dataset (fun s => none) "train" =
      Except.ok FinalData.empty ∧
    initSize FinalData.empty = 0 ∧
    initAugment FinalData.empty "." "train" =
      ⟨FinalData.empty, [], [], [], []⟩ :=
  unknown_subset_empty "train" (by decide) (fun s => none) "."

end WavCaps
